import Mathlib

/-!
# Temperature data collection device: sketch and Sigfox driver interface

Shallow embedding of `Sketch.cpp` (the functions `setup` and `loop` with the
globals they use) and of the interface declared in `arduinoSigfox.h`.

Calls into the libraries (`Sigfox`, `sensors`, `LowPower`, pin I/O) are recorded
as events in a trace carried by the program state; the values they return come
from an environment `Env` that may depend on the whole history of calls.
-/

namespace Sketch

/-- An unsigned 8-bit machine value. -/
abbrev uint8_t := Fin 256

/-- A `float` is represented by the four bytes of its object representation, in
memory order: `b0` is the byte read through `temp_union.value1[0]`. -/
structure float where
  b0 : uint8_t
  b1 : uint8_t
  b2 : uint8_t
  b3 : uint8_t
deriving DecidableEq, Repr

/-- The type `DeviceAddress` of the sensor library: eight bytes. -/
abbrev DeviceAddress := List uint8_t

/-- The table `tempSensor[7]`. -/
def tempSensor : List DeviceAddress :=
  [ [0x28, 0x5F, 0x7F, 0x29, 0x08, 0x00, 0x00, 0xD0],
    [0x28, 0x86, 0x1A, 0x2A, 0x08, 0x00, 0x00, 0xC9],
    [0x28, 0xDC, 0xE7, 0x29, 0x08, 0x00, 0x00, 0xEA],
    [0x28, 0x47, 0xFF, 0x5A, 0x08, 0x00, 0x00, 0xC1],
    [0x28, 0x3B, 0xD1, 0x29, 0x08, 0x00, 0x00, 0x5E],
    [0x28, 0x14, 0xD6, 0x29, 0x08, 0x00, 0x00, 0x9D],
    [0x28, 0xE2, 0xA5, 0x29, 0x08, 0x00, 0x00, 0x7E] ]

/-- The constant `SOCKET0` of `arduinoSigfox.h`. -/
def SOCKET0 : uint8_t := 0

/-- Pin modes used by the sketch (`Arduino.h`). -/
inductive PinMode
  | OUTPUT
deriving DecidableEq, Repr

/-- Pin levels used by the sketch (`Arduino.h`). -/
inductive Level
  | LOW
deriving DecidableEq, Repr

/-- Pins named by the sketch: a digital pin number, or one of the analog pin
constants `A1`, `A5` of `Arduino.h`. -/
inductive Pin
  | D (n : Nat)
  | A1
  | A5
deriving DecidableEq, Repr

/-- Sleep periods of the `LowPower` library used by the sketch. -/
inductive period_t
  | SLEEP_8S
deriving DecidableEq, Repr

/-- Nominal duration in seconds of a sleep period, as named by the constant. -/
def period_t.seconds : period_t → Nat
  | .SLEEP_8S => 8

/-- ADC setting of the `LowPower` library used by the sketch. -/
inductive adc_t
  | ADC_OFF
deriving DecidableEq, Repr

/-- Brown-out detector setting of the `LowPower` library used by the sketch. -/
inductive bod_t
  | BOD_OFF
deriving DecidableEq, Repr

/-- One call made by the sketch into a library. A `send` event carries the bytes
addressed by the call (the first `length` bytes of the buffer) and the length. -/
inductive Event
  | pinMode (pin : Pin) (mode : PinMode)
  | digitalWrite (pin : Pin) (val : Level)
  | analogWrite (pin : Pin) (val : Level)
  | ON (socket : uint8_t)
  | OFF (socket : uint8_t)
  | requestTemperaturesByAddress (addr : DeviceAddress)
  | getTempC (addr : DeviceAddress)
  | send (bytes : List uint8_t) (length : Nat)
  | powerDown (period : period_t) (adc : adc_t) (bod : bod_t)
deriving DecidableEq, Repr

/-- The values returned by the library calls, each as a function of the calls
made so far and of the arguments of the call. The libraries do not write to the
globals of the sketch. -/
structure Env where
  ON : List Event → uint8_t → uint8_t
  OFF : List Event → uint8_t → uint8_t
  requestTemperaturesByAddress : List Event → DeviceAddress → Bool
  getTempC : List Event → DeviceAddress → float
  send : List Event → List uint8_t → Nat → uint8_t

/-- The globals of the sketch, and the trace of library calls made so far. The
union `temp_union` is four bytes of storage, viewed as the float `value2` or as
the bytes `value1[0..3]`. The counter `i` is a 16-bit signed `int`. -/
structure State where
  tempC : float
  socket : uint8_t
  error : uint8_t
  temp_union : float
  data : List uint8_t
  size : uint8_t
  i : Int
  trace : List Event
deriving DecidableEq, Repr

/-- The globals as the program starts: objects of static storage are zero,
`socket` is initialised to `SOCKET0`, and no call has been made. -/
def State.init : State :=
  { tempC := ⟨0, 0, 0, 0⟩, socket := SOCKET0, error := 0, temp_union := ⟨0, 0, 0, 0⟩,
    data := List.replicate 12 0, size := 0, i := 0, trace := [] }

/-- Reduction of an integer to the range of a 16-bit signed `int`. -/
def int16 (x : Int) : Int := (x + 32768) % 65536 - 32768

/-- Conversion of an `int` to `uint8_t`. -/
def toUint8 (x : Int) : uint8_t := ⟨(x % 256).toNat, by omega⟩

/-- Record a library call. -/
def emit (e : Event) (s : State) : State :=
  { s with trace := s.trace ++ [e] }

/-- The increment `i++` of the loop counter. -/
def incr (s : State) : State :=
  { s with i := int16 (s.i + 1) }

/-- The function `setup`. -/
def setup (env : Env) (s : State) : State :=
  let s := emit (.pinMode (.D 13) .OUTPUT) s
  let s := emit (.digitalWrite (.D 13) .LOW) s
  let _r := env.ON s.trace s.socket
  emit (.ON s.socket) s

/-- A loop `for (...; cond; i++) body`, after its initialisation: `step` is the
body followed by the increment. The result is `none` when the fuel runs out. -/
def forLoop (cond : State → Bool) (step : State → State) : Nat → State → Option State
  | 0, _ => none
  | fuel + 1, s => if cond s then forLoop cond step fuel (step s) else some s

/-- The body of the first loop of `loop`: read sensor `i` and send its frame. -/
def sensorBody (env : Env) (s : State) : State :=
  let _r := env.requestTemperaturesByAddress s.trace (tempSensor.getD s.i.toNat [])
  let s := emit (.requestTemperaturesByAddress (tempSensor.getD s.i.toNat [])) s
  let s := { emit (.getTempC (tempSensor.getD s.i.toNat [])) s with
             tempC := env.getTempC s.trace (tempSensor.getD s.i.toNat []) }
  let s := { s with temp_union := s.tempC }
  let s := { s with data := s.data.set 0 s.temp_union.b3 }
  let s := { s with data := s.data.set 1 s.temp_union.b2 }
  let s := { s with data := s.data.set 2 s.temp_union.b1 }
  let s := { s with data := s.data.set 3 s.temp_union.b0 }
  let sensor : uint8_t := toUint8 (s.i + 1)
  let s := { s with data := s.data.set 4 sensor }
  let s := { s with size := 5 }
  let _r := env.send s.trace (s.data.take s.size.val) s.size.val
  emit (.send (s.data.take s.size.val) s.size.val) s

/-- The body of the second loop of `loop`: one call of `LowPower.powerDown`. -/
def sleepBody (s : State) : State :=
  emit (.powerDown .SLEEP_8S .ADC_OFF .BOD_OFF) s

/-- The statements of `loop` between its two loops. -/
def switchOff (env : Env) (s : State) : State :=
  let _r := env.OFF s.trace s.socket
  let s := emit (.OFF s.socket) s
  let s := emit (.digitalWrite (.D 1) .LOW) s
  let s := emit (.digitalWrite (.D 2) .LOW) s
  let s := emit (.digitalWrite (.D 3) .LOW) s
  let s := emit (.digitalWrite (.D 4) .LOW) s
  let s := emit (.analogWrite .A1 .LOW) s
  emit (.analogWrite .A5 .LOW) s

/-- The statement of `loop` after its second loop. -/
def switchOn (env : Env) (s : State) : State :=
  let _r := env.ON s.trace s.socket
  emit (.ON s.socket) s

/-- One iteration of the first loop: the body, then `i++`. -/
def sensorStep (env : Env) (s : State) : State :=
  incr (sensorBody env s)

/-- One iteration of the second loop: the body, then `i++`. -/
def sleepStep (s : State) : State :=
  incr (sleepBody s)

/-- The first loop of `loop`: `for (i = 0; i < 7; i++)`. -/
def sensorLoop (env : Env) (fuel : Nat) (s : State) : Option State :=
  forLoop (fun s => decide (s.i < 7)) (sensorStep env) fuel { s with i := 0 }

/-- The second loop of `loop`: `for (i = 0; i < 10800; i++)`. -/
def sleepLoop (fuel : Nat) (s : State) : Option State :=
  forLoop (fun s => decide (s.i < 10800)) sleepStep fuel { s with i := 0 }

/-- The function `loop`: one wake cycle. -/
def loop (env : Env) (fuel : Nat) (s : State) : Option State :=
  match sensorLoop env fuel s with
  | none => none
  | some s =>
    match sleepLoop fuel (switchOff env s) with
    | none => none
    | some s => some (switchOn env s)

/-- A number of executions of `loop`, one after the other. -/
def loops (env : Env) (fuel : Nat) : Nat → State → Option State
  | 0, s => some s
  | n + 1, s =>
    match loop env fuel s with
    | none => none
    | some s => loops env fuel n s

/-- A run of the program: `setup`, then `n` executions of `loop`. -/
def run (env : Env) (fuel : Nat) (n : Nat) : Option State :=
  loops env fuel n (setup env State.init)

/-! ### Observations on traces -/

/-- The arguments of the `send` calls of a trace, in order. -/
def sendCalls : List Event → List (List uint8_t × Nat)
  | [] => []
  | .send bytes length :: t => (bytes, length) :: sendCalls t
  | _ :: t => sendCalls t

/-- The periods of the `powerDown` calls of a trace, in order. -/
def powerDownCalls : List Event → List period_t
  | [] => []
  | .powerDown period _ _ :: t => period :: powerDownCalls t
  | _ :: t => powerDownCalls t

/-- The calls of a trace that concern a sensor or the radio link, in order. -/
def sensorCalls : List Event → List Event
  | [] => []
  | .requestTemperaturesByAddress addr :: t => .requestTemperaturesByAddress addr :: sensorCalls t
  | .getTempC addr :: t => .getTempC addr :: sensorCalls t
  | .send bytes length :: t => .send bytes length :: sensorCalls t
  | _ :: t => sensorCalls t

/-- The frame of a reading `r` of the sensor of index `k`. -/
def frame (r : float) (k : Nat) : List uint8_t :=
  [r.b3, r.b2, r.b1, r.b0, Fin.ofNat (k + 1)]

/-- The reading and the sensor index read back from a frame. -/
def decodeFrame : List uint8_t → Option (float × Nat)
  | [a3, a2, a1, a0, n] => some (⟨a0, a1, a2, a3⟩, n.val - 1)
  | _ => none

/-- The calls made by the first `k` iterations of the first loop of `loop`, when
the loop starts after the history `t`: for each index, the request to the
sensor, the reading, and the `send` of the frame of the reading returned. -/
def sensorPhase (env : Env) (t : List Event) : Nat → List Event
  | 0 => []
  | k + 1 =>
    sensorPhase env t k ++
      [ .requestTemperaturesByAddress (tempSensor.getD k []),
        .getTempC (tempSensor.getD k []),
        .send (frame (env.getTempC (t ++ sensorPhase env t k ++
          [.requestTemperaturesByAddress (tempSensor.getD k [])]) (tempSensor.getD k [])) k) 5 ]

/-- The reading returned to iteration `k` of the first loop of a wake cycle that
starts after the history `t`. -/
def reading (env : Env) (t : List Event) (k : Nat) : float :=
  env.getTempC (t ++ sensorPhase env t k ++
    [.requestTemperaturesByAddress (tempSensor.getD k [])]) (tempSensor.getD k [])

/-- The calls of `loop` between its two loops. -/
def offCalls (socket : uint8_t) : List Event :=
  [ .OFF socket, .digitalWrite (.D 1) .LOW, .digitalWrite (.D 2) .LOW,
    .digitalWrite (.D 3) .LOW, .digitalWrite (.D 4) .LOW,
    .analogWrite .A1 .LOW, .analogWrite .A5 .LOW ]

/-- The calls of `n` iterations of the second loop of `loop`. -/
def sleepCalls (n : Nat) : List Event :=
  List.replicate n (.powerDown .SLEEP_8S .ADC_OFF .BOD_OFF)

/-- The calls of one wake cycle that starts after the history `t`. -/
def cycleCalls (env : Env) (socket : uint8_t) (t : List Event) : List Event :=
  sensorPhase env t 7 ++ offCalls socket ++ sleepCalls 10800 ++ [.ON socket]

/-- The power state of the module, as set by the calls `ON` and `OFF`. -/
inductive Power
  | off
  | on
deriving DecidableEq, Repr

/-- The power state after one more call. -/
def Power.step (p : Power) : Event → Power
  | .ON _ => .on
  | .OFF _ => .off
  | _ => p

/-- The power state after a trace that starts in state `p`. -/
def powerAfter (p : Power) (t : List Event) : Power :=
  t.foldl Power.step p

/-- The states requested by the calls `ON` and `OFF` of a trace, in order. -/
def powerCalls : List Event → List Power
  | [] => []
  | .ON _ :: t => .on :: powerCalls t
  | .OFF _ :: t => .off :: powerCalls t
  | _ :: t => powerCalls t

/-- Whether a call is made in a power state that suits it: `ON` when off, `OFF`
when on, `send` when on, `powerDown` when off. -/
def Power.allows (p : Power) : Event → Bool
  | .ON _ => p = .off
  | .OFF _ => p = .on
  | .send _ _ => p = .on
  | .powerDown _ _ _ => p = .off
  | _ => true

/-- Whether every call of a trace that starts in state `p` is made in a power
state that suits it. -/
def disciplined : Power → List Event → Bool
  | _, [] => true
  | p, e :: t => p.allows e && disciplined (p.step e) t

/-- An environment in which every call succeeds (returns 0, or `true`) and every
reading has the bytes 0x00, 0x00, 0xC8, 0x41 (the float 25.0 on a little-endian
target). -/
def Env.nominal : Env :=
  { ON := fun _ _ => 0, OFF := fun _ _ => 0,
    requestTemperaturesByAddress := fun _ _ => true,
    getTempC := fun _ _ => ⟨0x00, 0x00, 0xC8, 0x41⟩,
    send := fun _ _ _ => 0 }

/-- An environment with the readings of `Env.nominal` in which every call
fails (returns 1, or `false`). -/
def Env.failing : Env :=
  { ON := fun _ _ => 1, OFF := fun _ _ => 1,
    requestTemperaturesByAddress := fun _ _ => false,
    getTempC := fun _ _ => ⟨0x00, 0x00, 0xC8, 0x41⟩,
    send := fun _ _ _ => 1 }

end Sketch

namespace Driver

set_option linter.dupNamespace false

/-- The answer `AT_OK` of the module. -/
def AT_OK : List Char := "OK".toList

/-- The answer `AT_ERROR` of the module. -/
def AT_ERROR : List Char := "ERROR".toList

/-- The line ending `AT_EOL`. -/
def AT_EOL : List Char := "\r\n".toList

/-- The header `AT_HEADER` of SET and READ commands. -/
def AT_HEADER : List Char := "AT$".toList

/-- The header `AT_HEADER_SLASH` of DISPLAY commands. -/
def AT_HEADER_SLASH : List Char := "AT/".toList

/-- The enumeration `AnswersTypes`. -/
inductive AnswersTypes
  | SIGFOX_ANSWER_OK
  | SIGFOX_ANSWER_ERROR
  | SIGFOX_NO_ANSWER
deriving DecidableEq, Repr

/-- The numeric value of an answer type. -/
def AnswersTypes.toNat : AnswersTypes → Nat
  | .SIGFOX_ANSWER_OK => 0
  | .SIGFOX_ANSWER_ERROR => 1
  | .SIGFOX_NO_ANSWER => 2

/-- The enumeration `CommandTypes`. -/
inductive CommandTypes
  | SIGFOX_CMD_SET
  | SIGFOX_CMD_READ
  | SIGFOX_CMD_DISPLAY
deriving DecidableEq, Repr

/-- The numeric value of a command type. -/
def CommandTypes.toNat : CommandTypes → Nat
  | .SIGFOX_CMD_SET => 1
  | .SIGFOX_CMD_READ => 2
  | .SIGFOX_CMD_DISPLAY => 3

/-- The size of the command buffer, `char _command[100]`. -/
def COMMAND_CAPACITY : Nat := 100

/-- An unsigned 8-bit value (`uint8_t`, and the elements of a `char` array). -/
abbrev uint8_t := Fin 256

/-- An unsigned 32-bit value (`uint32_t`). -/
abbrev uint32_t := Fin 4294967296

/-- A value of the type `int` of the target, 16 bits wide and signed. -/
abbrev int_t := { v : Int // -32768 ≤ v ∧ v ≤ 32767 }

/-- A signed 32-bit value (`int32_t`). -/
abbrev int32_t := { v : Int // -2147483648 ≤ v ∧ v ≤ 2147483647 }

/-- The public attributes of the class `arduinoSigfox`. A scalar attribute, or an
element of an array attribute, holds a value of its type or is indeterminate
(`none`): an indeterminate attribute has no value a program may rely on. -/
structure arduinoSigfox where
  _powerLAN : Option int_t
  _firmware : List (Option uint8_t)
  _packet : List (Option uint8_t)
  _macroChannelBitmask : List (Option uint8_t)
  _power : Option uint8_t
  _region : Option uint8_t
  _macroChannel : Option uint8_t
  _id : Option uint32_t
  _address : Option uint32_t
  _mask : Option uint32_t
  _frequency : Option uint32_t
  _downFreqOffset : Option int32_t
deriving DecidableEq, Repr

/-- The constructor `arduinoSigfox::arduinoSigfox()`, run on the object under
construction. It has no member initialiser, no attribute has a default
initialiser, and its body is empty (`//do nothing`): it assigns no attribute. -/
def arduinoSigfox.arduinoSigfox (object : arduinoSigfox) : arduinoSigfox :=
  object

/-- One argument of a command, tagged with its kind. -/
inductive Arg
  | str (s : List Char)
  | int (v : Int)
  | hex (v : Nat)
deriving DecidableEq, Repr

/-- Modelled from the spec: the text of one argument. The body of the encoder
is not in the sources; the specification has a string argument copied,
an integer argument written in decimal and a hex argument in hexadecimal. -/
def Arg.format : Arg → List Char
  | .str s => s
  | .int v => (toString v).toList
  | .hex v => Nat.toDigits 16 v

/-- Modelled from the spec: the arguments appended to the line one after the
other, a comma between two consecutive ones. -/
def appendArgs : List Char → List Arg → List Char
  | line, [] => line
  | line, [a] => line ++ a.format
  | line, a :: b :: rest => appendArgs (line ++ a.format ++ [',']) (b :: rest)

/-- Modelled from the spec: the command line assembled for a command type, a
command code and an argument list (component "Command Encoder"; the body of
`arduinoSigfox::generator` is not in the sources). -/
def commandLine (type : CommandTypes) (cmdCode : List Char) (args : List Arg) : List Char :=
  match type with
  | .SIGFOX_CMD_SET => appendArgs (AT_HEADER ++ cmdCode ++ ['=']) args ++ AT_EOL
  | .SIGFOX_CMD_READ => AT_HEADER ++ cmdCode ++ ['?'] ++ AT_EOL
  | .SIGFOX_CMD_DISPLAY => AT_HEADER_SLASH ++ cmdCode ++ ['?'] ++ AT_EOL

/-- Modelled from the spec: `arduinoSigfox::generator`, whose body is not in the
sources. The line is assembled, a length check compares it with the capacity
of the command buffer, and the call fails (`none`) when the line does not fit;
otherwise the result is the new content of `_command`. The number `n` of
variadic arguments is the length of `args`. -/
def arduinoSigfox.generator (type : CommandTypes) (cmdCode : List Char) (args : List Arg) :
    Option (List Char) :=
  let line := commandLine type cmdCode args
  if line.length ≤ COMMAND_CAPACITY then some line else none

/-- Modelled from the spec: the response reader/classifier, which is not in the
sources. The response is `none` when no terminated line arrived within the
timeout window, and the line without its terminator otherwise. The result is
the outcome and, for OK, the payload after the separator `=`. A line that is
neither an OK nor an ERROR answer is not an answer. -/
def classify : Option (List Char) → AnswersTypes × Option (List Char)
  | none => (.SIGFOX_NO_ANSWER, none)
  | some line =>
    if line = AT_OK then (.SIGFOX_ANSWER_OK, some [])
    else if line.take 3 = AT_OK ++ ['='] then (.SIGFOX_ANSWER_OK, some (line.drop 3))
    else if line = AT_ERROR then (.SIGFOX_ANSWER_ERROR, none)
    else (.SIGFOX_NO_ANSWER, none)

/-- The value of an ASCII hexadecimal digit, `none` for any other character. -/
def hexDigit (c : Char) : Option Nat :=
  if 48 ≤ c.toNat ∧ c.toNat ≤ 57 then some (c.toNat - 48)
  else if 65 ≤ c.toNat ∧ c.toNat ≤ 70 then some (c.toNat - 55)
  else if 97 ≤ c.toNat ∧ c.toNat ≤ 102 then some (c.toNat - 87)
  else none

/-- The value of an ASCII decimal digit, `none` for any other character. -/
def decDigit (c : Char) : Option Nat :=
  if 48 ≤ c.toNat ∧ c.toNat ≤ 57 then some (c.toNat - 48) else none

/-- Modelled from the spec: the hex parser reads the payload from left to
right into an unsigned 32-bit accumulator and fails on a non-hex character. -/
def parseHexFrom : Nat → List Char → Option Nat
  | acc, [] => some acc
  | acc, c :: cs =>
    match hexDigit c with
    | none => none
    | some d => parseHexFrom ((acc * 16 + d) % 2 ^ 32) cs

/-- Modelled from the spec: `arduinoSigfox::parseHexValue`, whose body is not in
the sources, as a function of the payload: the unsigned 32-bit value of the hex
digits, or `none` (malformed) when a character is not a hex digit. -/
def arduinoSigfox.parseHexValue (payload : List Char) : Option Nat :=
  parseHexFrom 0 payload

/-- Modelled from the spec: the 8-bit decimal parser reads the payload from
left to right and fails on a non-digit or as soon as the value leaves
the range of an unsigned 8-bit integer. -/
def parseUint8From : Nat → List Char → Option Nat
  | acc, [] => some acc
  | acc, c :: cs =>
    match decDigit c with
    | none => none
    | some d => if acc * 10 + d ≤ 255 then parseUint8From (acc * 10 + d) cs else none

/-- Modelled from the spec: `arduinoSigfox::parseUint8Value`, whose body is not
in the sources, as a function of the payload: the value of the decimal digits,
or `none` when the payload is not numeric or its value is not in [0,255]. -/
def arduinoSigfox.parseUint8Value : List Char → Option Nat
  | [] => none
  | c :: cs => parseUint8From 0 (c :: cs)

/-- The number written by a list of hexadecimal digits, most significant first:
each digit counts for its value times the power of 16 of its position. A
character that is not a hex digit counts as 0. -/
def hexValue : List Char → Nat
  | [] => 0
  | c :: cs => (hexDigit c).getD 0 * 16 ^ cs.length + hexValue cs

/-- The number written by a list of decimal digits, most significant first:
each digit counts for its value times the power of 10 of its position. A
character that is not a digit counts as 0. -/
def decValue : List Char → Nat
  | [] => 0
  | c :: cs => (decDigit c).getD 0 * 10 ^ cs.length + decValue cs

/-- The command line the specification gives for a command type, a command code
and the texts of the arguments: `AT$<code>=<a1>,...,<an>` for SET, `AT$<code>?`
for READ and `AT/<code>?` for DISPLAY, each followed by CR LF. -/
def expectedLine : CommandTypes → List Char → List (List Char) → List Char
  | .SIGFOX_CMD_SET, code, texts =>
    "AT$".toList ++ code ++ "=".toList ++ List.intercalate ",".toList texts ++ "\r\n".toList
  | .SIGFOX_CMD_READ, code, _ => "AT$".toList ++ code ++ "?\r\n".toList
  | .SIGFOX_CMD_DISPLAY, code, _ => "AT/".toList ++ code ++ "?\r\n".toList

end Driver

namespace Sketch

/-! ### Loops -/

theorem forLoop_iterate (cond : State → Bool) (step : State → State) :
    ∀ (n fuel : Nat) (s : State), (∀ k < n, cond (step^[k] s) = true) →
      cond (step^[n] s) = false → n < fuel →
      forLoop cond step fuel s = some (step^[n] s) := by
  intro n
  induction n with
  | zero =>
    intro fuel s _ hstop hfuel
    obtain ⟨f, rfl⟩ : ∃ f, fuel = f + 1 := ⟨fuel - 1, by omega⟩
    simp only [Function.iterate_zero, id_eq] at hstop
    simp [forLoop, hstop]
  | succ n ih =>
    intro fuel s hgo hstop hfuel
    obtain ⟨f, rfl⟩ : ∃ f, fuel = f + 1 := ⟨fuel - 1, by omega⟩
    have h0 : cond s = true := by simpa using hgo 0 (Nat.succ_pos n)
    have hrest := ih f (step s)
      (fun k hk => by simpa [Function.iterate_succ_apply] using hgo (k + 1) (by omega))
      (by simpa [Function.iterate_succ_apply] using hstop) (by omega)
    simp [forLoop, h0, hrest, Function.iterate_succ_apply]

theorem int16_succ (k : Nat) (hk : k < 32767) : int16 ((k : Int) + 1) = ((k + 1 : Nat) : Int) := by
  unfold int16
  omega

theorem sleepStep_iterate (s : State) (k : Nat) (hk : k ≤ 10800) :
    sleepStep^[k] { s with i := 0 } =
      { s with i := (k : Int),
               trace := s.trace ++ sleepCalls k } := by
  induction k with
  | zero => simp [sleepCalls]
  | succ k ih =>
    rw [Function.iterate_succ_apply', ih (by omega)]
    simp only [sleepStep, sleepBody, incr, emit, int16_succ k (by omega), sleepCalls]
    simp [List.replicate_succ', List.append_assoc]

theorem sleepLoop_eq (fuel : Nat) (s : State) (hfuel : 10801 ≤ fuel) :
    sleepLoop fuel s = some (sleepStep^[10800] { s with i := 0 }) := by
  unfold sleepLoop
  apply forLoop_iterate
  · intro k hk
    rw [sleepStep_iterate s k (by omega)]
    simp only [decide_eq_true_eq]
    omega
  · rw [sleepStep_iterate s 10800 (by omega)]
    simp
  · omega


theorem toUint8_succ (k : Nat) : toUint8 ((k : Int) + 1) = Fin.ofNat (k + 1) := by
  apply Fin.ext
  simp only [toUint8, Fin.ofNat]
  omega

theorem sensorBody_eq (env : Env) (s : State) (k : Nat) (hi : s.i = (k : Int))
    (hdata : 5 ≤ s.data.length) :
    sensorBody env s =
      { s with
        tempC := env.getTempC (s.trace ++ [.requestTemperaturesByAddress (tempSensor.getD k [])])
          (tempSensor.getD k []),
        temp_union := env.getTempC
          (s.trace ++ [.requestTemperaturesByAddress (tempSensor.getD k [])])
          (tempSensor.getD k []),
        data := frame (env.getTempC
          (s.trace ++ [.requestTemperaturesByAddress (tempSensor.getD k [])])
          (tempSensor.getD k [])) k ++ s.data.drop 5,
        size := 5,
        trace := s.trace ++
          [ .requestTemperaturesByAddress (tempSensor.getD k []),
            .getTempC (tempSensor.getD k []),
            .send (frame (env.getTempC
              (s.trace ++ [.requestTemperaturesByAddress (tempSensor.getD k [])])
              (tempSensor.getD k [])) k) 5 ] } := by
  obtain ⟨tempC, socket, error, tu, data, size, i, trace⟩ := s
  simp only at hi hdata
  subst hi
  rcases data with _ | ⟨d0, _ | ⟨d1, _ | ⟨d2, _ | ⟨d3, _ | ⟨d4, rest⟩⟩⟩⟩⟩ <;>
    simp at hdata
  have h5 : ((5 : uint8_t) : Nat) = 5 := rfl
  simp [sensorBody, emit, frame, toUint8_succ, h5]

theorem sensorStep_iterate (env : Env) (s : State) (hdata : s.data.length = 12) (k : Nat)
    (hk : k ≤ 7) :
    (((sensorStep env)^[k] { s with i := 0 }).i = (k : Int) ∧
      ((sensorStep env)^[k] { s with i := 0 }).data.length = 12) ∧
      ((sensorStep env)^[k] { s with i := 0 }).socket = s.socket ∧
      ((sensorStep env)^[k] { s with i := 0 }).trace = s.trace ++ sensorPhase env s.trace k := by
  induction k with
  | zero => simp [sensorPhase, hdata]
  | succ k ih =>
    obtain ⟨⟨hi, hlen⟩, hsock, htrace⟩ := ih (by omega)
    rw [Function.iterate_succ_apply']
    generalize (sensorStep env)^[k] { s with i := 0 } = u at hi hlen hsock htrace
    rw [sensorStep, sensorBody_eq env u k hi (by omega)]
    simp only [incr, hi, int16_succ k (by omega), hsock, htrace, sensorPhase]
    refine ⟨⟨by simp, ?_⟩, trivial, by simp [List.append_assoc]⟩
    simp [frame, hlen]

theorem sensorLoop_eq (env : Env) (fuel : Nat) (s : State) (hdata : s.data.length = 12)
    (hfuel : 8 ≤ fuel) :
    sensorLoop env fuel s = some ((sensorStep env)^[7] { s with i := 0 }) := by
  unfold sensorLoop
  apply forLoop_iterate
  · intro k hk
    rw [(sensorStep_iterate env s hdata k (by omega)).1.1]
    simp only [decide_eq_true_eq]
    omega
  · rw [(sensorStep_iterate env s hdata 7 (by omega)).1.1]
    simp
  · omega

/-- One execution of `loop` returns, and appends the calls of one wake cycle. -/
theorem loop_eq (env : Env) (fuel : Nat) (s : State) (hdata : s.data.length = 12)
    (hfuel : 10801 ≤ fuel) :
    ∃ s', loop env fuel s = some s' ∧ s'.data.length = 12 ∧ s'.socket = s.socket ∧
      s'.i = 10800 ∧ s'.trace = s.trace ++ cycleCalls env s.socket s.trace := by
  obtain ⟨⟨_, hlen⟩, hsock, htrace⟩ := sensorStep_iterate env s hdata 7 (by omega)
  simp only [loop, sensorLoop_eq env fuel s hdata (by omega), sleepLoop_eq fuel _ hfuel]
  generalize (sensorStep env)^[7] { s with i := 0 } = u at hlen hsock htrace
  refine ⟨_, rfl, ?_, ?_, ?_, ?_⟩
  · rw [sleepStep_iterate _ 10800 (by omega)]
    simpa [switchOn, switchOff, emit] using hlen
  · rw [sleepStep_iterate _ 10800 (by omega)]
    simpa [switchOn, switchOff, emit] using hsock
  · rw [sleepStep_iterate _ 10800 (by omega)]
    simp [switchOn, switchOff, emit]
  · rw [sleepStep_iterate _ 10800 (by omega)]
    simp [switchOn, switchOff, emit, htrace, hsock, cycleCalls, offCalls, List.append_assoc]


/-! ### Observations of the calls of one wake cycle -/

theorem sendCalls_append (t u : List Event) : sendCalls (t ++ u) = sendCalls t ++ sendCalls u := by
  induction t with
  | nil => rfl
  | cons e t ih => cases e <;> simp [sendCalls, ih]

theorem powerDownCalls_append (t u : List Event) :
    powerDownCalls (t ++ u) = powerDownCalls t ++ powerDownCalls u := by
  induction t with
  | nil => rfl
  | cons e t ih => cases e <;> simp [powerDownCalls, ih]

theorem sensorCalls_append (t u : List Event) :
    sensorCalls (t ++ u) = sensorCalls t ++ sensorCalls u := by
  induction t with
  | nil => rfl
  | cons e t ih => cases e <;> simp [sensorCalls, ih]

theorem powerCalls_append (t u : List Event) :
    powerCalls (t ++ u) = powerCalls t ++ powerCalls u := by
  induction t with
  | nil => rfl
  | cons e t ih => cases e <;> simp [powerCalls, ih]

theorem powerAfter_append (p : Power) (t u : List Event) :
    powerAfter p (t ++ u) = powerAfter (powerAfter p t) u := by
  simp [powerAfter, List.foldl_append]

theorem disciplined_append (p : Power) (t u : List Event) :
    disciplined p (t ++ u) = (disciplined p t && disciplined (powerAfter p t) u) := by
  induction t generalizing p with
  | nil => simp [disciplined, powerAfter]
  | cons e t ih => simp [disciplined, powerAfter, ih, Bool.and_assoc]

theorem sensorPhase_succ (env : Env) (t : List Event) (k : Nat) :
    sensorPhase env t (k + 1) = sensorPhase env t k ++
      [ .requestTemperaturesByAddress (tempSensor.getD k []), .getTempC (tempSensor.getD k []),
        .send (frame (reading env t k) k) 5 ] := rfl

theorem sensorPhase_eq (env : Env) (t : List Event) (k : Nat) :
    sensorPhase env t k = (List.range k).flatMap (fun j =>
      [ .requestTemperaturesByAddress (tempSensor.getD j []), .getTempC (tempSensor.getD j []),
        .send (frame (reading env t j) j) 5 ]) := by
  induction k with
  | zero => rfl
  | succ k ih => rw [sensorPhase_succ, ih, List.range_succ, List.flatMap_append]; simp

theorem sendCalls_sensorPhase (env : Env) (t : List Event) (k : Nat) :
    sendCalls (sensorPhase env t k) =
      (List.range k).map (fun j => (frame (reading env t j) j, 5)) := by
  induction k with
  | zero => rfl
  | succ k ih =>
    rw [sensorPhase_succ, sendCalls_append, ih, List.range_succ, List.map_append]
    rfl

theorem sensorCalls_sensorPhase (env : Env) (t : List Event) (k : Nat) :
    sensorCalls (sensorPhase env t k) = sensorPhase env t k := by
  induction k with
  | zero => rfl
  | succ k ih => rw [sensorPhase_succ, sensorCalls_append, ih]; rfl

theorem powerDownCalls_sensorPhase (env : Env) (t : List Event) (k : Nat) :
    powerDownCalls (sensorPhase env t k) = [] := by
  induction k with
  | zero => rfl
  | succ k ih => rw [sensorPhase_succ, powerDownCalls_append, ih]; rfl

theorem powerCalls_sensorPhase (env : Env) (t : List Event) (k : Nat) :
    powerCalls (sensorPhase env t k) = [] := by
  induction k with
  | zero => rfl
  | succ k ih => rw [sensorPhase_succ, powerCalls_append, ih]; rfl

theorem powerAfter_sensorPhase (env : Env) (t : List Event) (p : Power) (k : Nat) :
    powerAfter p (sensorPhase env t k) = p := by
  induction k with
  | zero => rfl
  | succ k ih => rw [sensorPhase_succ, powerAfter_append, ih]; rfl

theorem disciplined_sensorPhase (env : Env) (t : List Event) (k : Nat) :
    disciplined .on (sensorPhase env t k) = true := by
  induction k with
  | zero => rfl
  | succ k ih =>
    rw [sensorPhase_succ, disciplined_append, ih, powerAfter_sensorPhase]
    rfl

theorem sendCalls_sleepCalls (n : Nat) : sendCalls (sleepCalls n) = [] := by
  induction n with
  | zero => rfl
  | succ n ih => simpa [sleepCalls, List.replicate_succ, sendCalls] using ih

theorem sensorCalls_sleepCalls (n : Nat) : sensorCalls (sleepCalls n) = [] := by
  induction n with
  | zero => rfl
  | succ n ih => simpa [sleepCalls, List.replicate_succ, sensorCalls] using ih

theorem powerCalls_sleepCalls (n : Nat) : powerCalls (sleepCalls n) = [] := by
  induction n with
  | zero => rfl
  | succ n ih => simpa [sleepCalls, List.replicate_succ, powerCalls] using ih

theorem powerDownCalls_sleepCalls (n : Nat) :
    powerDownCalls (sleepCalls n) = List.replicate n .SLEEP_8S := by
  induction n with
  | zero => rfl
  | succ n ih => simpa [sleepCalls, List.replicate_succ, powerDownCalls] using ih

theorem powerAfter_sleepCalls (p : Power) (n : Nat) : powerAfter p (sleepCalls n) = p := by
  induction n with
  | zero => rfl
  | succ n ih => simpa [sleepCalls, List.replicate_succ, powerAfter, Power.step] using ih

theorem disciplined_sleepCalls (n : Nat) : disciplined .off (sleepCalls n) = true := by
  induction n with
  | zero => rfl
  | succ n ih => simpa [sleepCalls, List.replicate_succ, disciplined, Power.step, Power.allows] using ih

theorem sendCalls_cycleCalls (env : Env) (socket : uint8_t) (t : List Event) :
    sendCalls (cycleCalls env socket t) =
      (List.range 7).map (fun j => (frame (reading env t j) j, 5)) := by
  simp only [cycleCalls, sendCalls_append, sendCalls_sensorPhase, sendCalls_sleepCalls]
  simp [offCalls, sendCalls]

theorem sensorCalls_cycleCalls (env : Env) (socket : uint8_t) (t : List Event) :
    sensorCalls (cycleCalls env socket t) = sensorPhase env t 7 := by
  simp only [cycleCalls, sensorCalls_append, sensorCalls_sensorPhase, sensorCalls_sleepCalls]
  simp [offCalls, sensorCalls]

theorem powerDownCalls_cycleCalls (env : Env) (socket : uint8_t) (t : List Event) :
    powerDownCalls (cycleCalls env socket t) = List.replicate 10800 .SLEEP_8S := by
  simp only [cycleCalls, powerDownCalls_append, powerDownCalls_sensorPhase,
    powerDownCalls_sleepCalls]
  simp only [offCalls, powerDownCalls, List.nil_append, List.append_nil]

theorem powerCalls_cycleCalls (env : Env) (socket : uint8_t) (t : List Event) :
    powerCalls (cycleCalls env socket t) = [.off, .on] := by
  simp only [cycleCalls, powerCalls_append, powerCalls_sensorPhase, powerCalls_sleepCalls]
  simp [offCalls, powerCalls]

theorem powerAfter_cycleCalls (env : Env) (socket : uint8_t) (t : List Event) (p : Power) :
    powerAfter p (cycleCalls env socket t) = .on := by
  simp only [cycleCalls, powerAfter_append, powerAfter_sensorPhase, powerAfter_sleepCalls]
  rfl

theorem disciplined_cycleCalls (env : Env) (socket : uint8_t) (t : List Event) :
    disciplined .on (cycleCalls env socket t) = true := by
  simp only [cycleCalls, disciplined_append, powerAfter_append, powerAfter_sensorPhase,
    disciplined_sensorPhase, Bool.true_and, Bool.and_eq_true]
  have hoff : powerAfter .on (offCalls socket) = .off := rfl
  rw [hoff, powerAfter_sleepCalls, disciplined_sleepCalls]
  exact ⟨⟨rfl, rfl⟩, rfl⟩


/-! ### Runs of the program -/

theorem chain_of_disciplined (t : List Event) :
    ∀ p : Power, disciplined p t = true → List.Chain (· ≠ ·) p (powerCalls t) := by
  induction t with
  | nil => intro p _; exact List.Chain.nil
  | cons e t ih =>
    intro p h
    simp only [disciplined, Bool.and_eq_true] at h
    obtain ⟨hall, hrest⟩ := h
    cases e <;> cases p <;>
      simp_all [powerCalls, Power.allows, Power.step]

theorem allowed_of_disciplined (p : Power) (pre post : List Event) (e : Event)
    (h : disciplined p (pre ++ e :: post) = true) : (powerAfter p pre).allows e = true := by
  rw [disciplined_append] at h
  simp only [disciplined, Bool.and_eq_true] at h
  exact h.2.1

theorem setup_trace (env : Env) (s : State) :
    (setup env s).trace = s.trace ++
      [.pinMode (.D 13) .OUTPUT, .digitalWrite (.D 13) .LOW, .ON s.socket] ∧
      (setup env s).data = s.data := by
  simp [setup, emit]

theorem loops_spec (env : Env) (fuel : Nat) (hfuel : 10801 ≤ fuel) :
    ∀ (n : Nat) (s : State), s.data.length = 12 → disciplined .off s.trace = true →
      powerAfter .off s.trace = .on →
      ∃ s', loops env fuel n s = some s' ∧ s'.data.length = 12 ∧
        disciplined .off s'.trace = true ∧ powerAfter .off s'.trace = .on ∧
        powerCalls s'.trace = powerCalls s.trace ++ (List.replicate n [.off, .on]).flatten := by
  intro n
  induction n with
  | zero =>
    intro s hdata hdisc hon
    exact ⟨s, rfl, hdata, hdisc, hon, by simp⟩
  | succ n ih =>
    intro s hdata hdisc hon
    obtain ⟨u, hu, hudata, _, _, hutrace⟩ := loop_eq env fuel s hdata hfuel
    have hudisc : disciplined .off u.trace = true := by
      rw [hutrace, disciplined_append, hdisc, hon, disciplined_cycleCalls]
      rfl
    have huon : powerAfter .off u.trace = .on := by
      rw [hutrace, powerAfter_append, powerAfter_cycleCalls]
    obtain ⟨s', hs', h1, h2, h3, h4⟩ := ih u hudata hudisc huon
    refine ⟨s', by simp [loops, hu, hs'], h1, h2, h3, ?_⟩
    rw [h4, hutrace, powerCalls_append, powerCalls_cycleCalls, List.replicate_succ]
    simp

theorem run_spec (env : Env) (fuel n : Nat) (hfuel : 10801 ≤ fuel) :
    ∃ s', run env fuel n = some s' ∧ s'.data.length = 12 ∧
      disciplined .off s'.trace = true ∧ powerAfter .off s'.trace = .on ∧
      powerCalls s'.trace = .on :: (List.replicate n [.off, .on]).flatten := by
  obtain ⟨htrace, hdata⟩ := setup_trace env State.init
  have h0 : State.init.trace = [] := rfl
  rw [h0, List.nil_append] at htrace
  obtain ⟨s', hs', h1, h2, h3, h4⟩ := loops_spec env fuel hfuel n (setup env State.init)
    (by rw [hdata]; rfl) (by rw [htrace]; rfl) (by rw [htrace]; rfl)
  refine ⟨s', hs', h1, h2, h3, ?_⟩
  rw [h4, htrace]
  rfl


/-! ### The wake cycle -/

theorem loop_congr (env env' : Env) (fuel : Nat) (s : State)
    (hsame : env'.getTempC = env.getTempC) : loop env' fuel s = loop env fuel s := by
  have hstep : sensorStep env' = sensorStep env := by
    funext u
    simp only [sensorStep, sensorBody, hsame]
  simp only [loop, sensorLoop, hstep, switchOff, switchOn]

/-- C6: in one execution of `loop`, `Sigfox.send` is called exactly seven times,
each time with length 5; the calls that concern the sensors and the link are,
for the indices 0 to 6 in order, the request to the sensor `tempSensor[k]`, the
reading of that sensor and the `send` of its frame; and the execution is the same
in any two environments that return the same readings, whatever the other calls
(among them `send`) return. -/
theorem loop_sends_one_frame_per_sensor (env env' : Env) (fuel : Nat) (s : State)
    (hdata : s.data.length = 12) (hfuel : 10801 ≤ fuel)
    (hsame : env'.getTempC = env.getTempC) :
    ∃ s' t, loop env fuel s = some s' ∧ s'.trace = s.trace ++ t ∧
      (sendCalls t).length = 7 ∧
      (sendCalls t).map Prod.snd = [5, 5, 5, 5, 5, 5, 5] ∧
      sensorCalls t = (List.range 7).flatMap (fun k =>
        [ .requestTemperaturesByAddress (tempSensor.getD k []),
          .getTempC (tempSensor.getD k []),
          .send (frame (reading env s.trace k) k) 5 ]) ∧
      (List.range 7).map (fun k => tempSensor.getD k []) = tempSensor ∧
      loop env' fuel s = loop env fuel s := by
  obtain ⟨s', hs', _, _, _, htrace⟩ := loop_eq env fuel s hdata hfuel
  refine ⟨s', cycleCalls env s.socket s.trace, hs', htrace, ?_, ?_, ?_, by decide,
    loop_congr env env' fuel s hsame⟩
  · rw [sendCalls_cycleCalls]; rfl
  · rw [sendCalls_cycleCalls]; rfl
  · rw [sensorCalls_cycleCalls, sensorPhase_eq]

theorem loop_sends_one_frame_per_sensor_witness :
    ∃ s' t, loop Env.nominal 10801 State.init = some s' ∧ s'.trace = State.init.trace ++ t ∧
      (sendCalls t).length = 7 ∧
      (sendCalls t).map Prod.snd = [5, 5, 5, 5, 5, 5, 5] ∧
      sensorCalls t = (List.range 7).flatMap (fun k =>
        [ .requestTemperaturesByAddress (tempSensor.getD k []),
          .getTempC (tempSensor.getD k []),
          .send (frame (reading Env.nominal State.init.trace k) k) 5 ]) ∧
      (List.range 7).map (fun k => tempSensor.getD k []) = tempSensor ∧
      loop Env.failing 10801 State.init = loop Env.nominal 10801 State.init :=
  loop_sends_one_frame_per_sensor Env.nominal Env.failing 10801 State.init (by decide)
    (by decide) rfl

/-- C8: in one execution of `loop`, `LowPower.powerDown` is called exactly 10800
times, each time with the period `SLEEP_8S`, so that the nominal sleep is
10800 * 8 = 86400 seconds, which is 24 hours; the second loop returns after
exactly 10800 iterations, and after `k` iterations (`k ≤ 10800`) the counter `i`
is `k`: it never exceeds 10800 and stays in the range of a 16-bit signed int. -/
theorem loop_sleeps_one_day (env : Env) (fuel : Nat) (s : State) (k : Nat)
    (hdata : s.data.length = 12) (hfuel : 10801 ≤ fuel) (hk : k ≤ 10800) :
    (∃ s' t, loop env fuel s = some s' ∧ s'.trace = s.trace ++ t ∧
      powerDownCalls t = List.replicate 10800 .SLEEP_8S ∧
      ((powerDownCalls t).map period_t.seconds).sum = 86400 ∧
      86400 = 24 * 60 * 60) ∧
    sleepLoop fuel s = some (sleepStep^[10800] { s with i := 0 }) ∧
    (sleepStep^[10800] { s with i := 0 }).trace =
      s.trace ++ List.replicate 10800 (.powerDown .SLEEP_8S .ADC_OFF .BOD_OFF) ∧
    (sleepStep^[k] { s with i := 0 }).i = (k : Int) ∧
    (sleepStep^[k] { s with i := 0 }).i ≤ 10800 ∧
    (sleepStep^[k] { s with i := 0 }).i ≤ 32767 ∧
    (sleepStep^[k] { s with i := 0 }).i = int16 (sleepStep^[k] { s with i := 0 }).i := by
  obtain ⟨s', hs', _, _, _, htrace⟩ := loop_eq env fuel s hdata hfuel
  refine ⟨⟨s', cycleCalls env s.socket s.trace, hs', htrace, ?_, ?_, by norm_num⟩,
    sleepLoop_eq fuel s hfuel, ?_, ?_⟩
  · rw [powerDownCalls_cycleCalls]
  · rw [powerDownCalls_cycleCalls, List.map_replicate, List.sum_replicate]
    rfl
  · rw [sleepStep_iterate s 10800 (by omega)]
    rfl
  · rw [sleepStep_iterate s k hk]
    dsimp only [int16]
    omega

theorem loop_sleeps_one_day_witness :
    (∃ s' t, loop Env.nominal 10801 State.init = some s' ∧ s'.trace = State.init.trace ++ t ∧
      powerDownCalls t = List.replicate 10800 .SLEEP_8S ∧
      ((powerDownCalls t).map period_t.seconds).sum = 86400 ∧
      86400 = 24 * 60 * 60) ∧
    sleepLoop 10801 State.init = some (sleepStep^[10800] { State.init with i := 0 }) ∧
    (sleepStep^[10800] { State.init with i := 0 }).trace =
      State.init.trace ++ List.replicate 10800 (.powerDown .SLEEP_8S .ADC_OFF .BOD_OFF) ∧
    (sleepStep^[10800] { State.init with i := 0 }).i = ((10800 : Nat) : Int) ∧
    (sleepStep^[10800] { State.init with i := 0 }).i ≤ 10800 ∧
    (sleepStep^[10800] { State.init with i := 0 }).i ≤ 32767 ∧
    (sleepStep^[10800] { State.init with i := 0 }).i =
      int16 (sleepStep^[10800] { State.init with i := 0 }).i :=
  loop_sleeps_one_day Env.nominal 10801 State.init 10800 (by decide) (by decide) (by decide)


/-- C9: when the body of the first loop runs with the counter `i` equal to `k`
(`0 ≤ k ≤ 6`), it makes one call of `send`, of length 5, whose bytes are the
bytes `value1[3]`, `value1[2]`, `value1[1]`, `value1[0]` of the reading held in
`temp_union` followed by the sensor number `k + 1`; the reading and the index are
read back from these bytes; and the sensor numbers sent in one execution of
`loop` are 1, 2, ..., 7 in this order, pairwise distinct. -/
theorem frame_is_reversed_reading_and_sensor_number (env : Env) (fuel : Nat) (s c : State)
    (k : Nat) (hk : k ≤ 6) (hi : s.i = (k : Int)) (hdata : s.data.length = 12)
    (hc : c.data.length = 12) (hfuel : 10801 ≤ fuel) :
    (sensorBody env s).trace = s.trace ++
      [ .requestTemperaturesByAddress (tempSensor.getD k []),
        .getTempC (tempSensor.getD k []),
        .send [ (sensorBody env s).temp_union.b3, (sensorBody env s).temp_union.b2,
                (sensorBody env s).temp_union.b1, (sensorBody env s).temp_union.b0,
                Fin.ofNat (k + 1) ] 5 ] ∧
    (sensorBody env s).temp_union =
      env.getTempC (s.trace ++ [.requestTemperaturesByAddress (tempSensor.getD k [])])
        (tempSensor.getD k []) ∧
    ((Fin.ofNat (k + 1) : uint8_t) : Nat) = k + 1 ∧
    decodeFrame [ (sensorBody env s).temp_union.b3, (sensorBody env s).temp_union.b2,
                  (sensorBody env s).temp_union.b1, (sensorBody env s).temp_union.b0,
                  Fin.ofNat (k + 1) ] = some ((sensorBody env s).temp_union, k) ∧
    ∃ c' t, loop env fuel c = some c' ∧ c'.trace = c.trace ++ t ∧
      sendCalls t = (List.range 7).map (fun j =>
        ([ (reading env c.trace j).b3, (reading env c.trace j).b2,
           (reading env c.trace j).b1, (reading env c.trace j).b0, Fin.ofNat (j + 1) ], 5)) ∧
      (sendCalls t).map (fun x => ((x.1.getD 4 0 : uint8_t) : Nat)) = [1, 2, 3, 4, 5, 6, 7] ∧
      ((sendCalls t).map (fun x => x.1.getD 4 0)).Nodup := by
  have hval : ((Fin.ofNat (k + 1) : uint8_t) : Nat) = k + 1 := by
    simp only [Fin.ofNat]
    omega
  refine ⟨?_, ?_, hval, ?_, ?_⟩
  · rw [sensorBody_eq env s k hi (by omega)]
    rfl
  · rw [sensorBody_eq env s k hi (by omega)]
  · simp only [decodeFrame, hval]
    rfl
  · obtain ⟨c', hc', _, _, _, htrace⟩ := loop_eq env fuel c hc hfuel
    refine ⟨c', cycleCalls env c.socket c.trace, hc', htrace, ?_, ?_, ?_⟩
    · rw [sendCalls_cycleCalls]; rfl
    · rw [sendCalls_cycleCalls]; rfl
    · rw [sendCalls_cycleCalls]
      have hnum : ((List.range 7).map (fun j => (frame (reading env c.trace j) j, 5))).map
          (fun x => x.1.getD 4 0) = [1, 2, 3, 4, 5, 6, 7] := rfl
      rw [hnum]
      decide

theorem frame_is_reversed_reading_and_sensor_number_witness :
    (sensorBody Env.nominal { State.init with i := 3 }).trace =
      ({ State.init with i := 3 } : State).trace ++
      [ .requestTemperaturesByAddress (tempSensor.getD 3 []),
        .getTempC (tempSensor.getD 3 []),
        .send [ (sensorBody Env.nominal { State.init with i := 3 }).temp_union.b3,
                (sensorBody Env.nominal { State.init with i := 3 }).temp_union.b2,
                (sensorBody Env.nominal { State.init with i := 3 }).temp_union.b1,
                (sensorBody Env.nominal { State.init with i := 3 }).temp_union.b0,
                Fin.ofNat (3 + 1) ] 5 ] ∧
    (sensorBody Env.nominal { State.init with i := 3 }).temp_union =
      Env.nominal.getTempC (({ State.init with i := 3 } : State).trace ++
        [.requestTemperaturesByAddress (tempSensor.getD 3 [])]) (tempSensor.getD 3 []) ∧
    ((Fin.ofNat (3 + 1) : uint8_t) : Nat) = 3 + 1 ∧
    decodeFrame [ (sensorBody Env.nominal { State.init with i := 3 }).temp_union.b3,
                  (sensorBody Env.nominal { State.init with i := 3 }).temp_union.b2,
                  (sensorBody Env.nominal { State.init with i := 3 }).temp_union.b1,
                  (sensorBody Env.nominal { State.init with i := 3 }).temp_union.b0,
                  Fin.ofNat (3 + 1) ] =
      some ((sensorBody Env.nominal { State.init with i := 3 }).temp_union, 3) ∧
    ∃ c' t, loop Env.nominal 10801 State.init = some c' ∧ c'.trace = State.init.trace ++ t ∧
      sendCalls t = (List.range 7).map (fun j =>
        ([ (reading Env.nominal State.init.trace j).b3,
           (reading Env.nominal State.init.trace j).b2,
           (reading Env.nominal State.init.trace j).b1,
           (reading Env.nominal State.init.trace j).b0, Fin.ofNat (j + 1) ], 5)) ∧
      (sendCalls t).map (fun x => ((x.1.getD 4 0 : uint8_t) : Nat)) = [1, 2, 3, 4, 5, 6, 7] ∧
      ((sendCalls t).map (fun x => x.1.getD 4 0)).Nodup :=
  frame_is_reversed_reading_and_sensor_number Env.nominal 10801 { State.init with i := 3 }
    State.init 3 (by decide) rfl (by decide) (by decide) (by decide)

/-- C10: in every run of the program (`setup`, then any number `n` of executions
of `loop`), which returns, the calls `ON` and `OFF` are ON, then `n` times OFF
and ON: they alternate strictly and start with ON; the module is ON at the end of
the run, that is at the start of the next execution of `loop`; every call of
`send` is made when the last of these calls was an ON, and every call of
`powerDown` when the last of them was an OFF. -/
theorem run_keeps_power_discipline (env : Env) (fuel n : Nat) (hfuel : 10801 ≤ fuel) :
    ∃ s', run env fuel n = some s' ∧
      powerCalls s'.trace = .on :: (List.replicate n [.off, .on]).flatten ∧
      List.Chain (· ≠ ·) Power.off (powerCalls s'.trace) ∧
      powerAfter .off s'.trace = .on ∧
      ∀ pre e post, s'.trace = pre ++ e :: post →
        (∀ bytes length, e = .send bytes length → powerAfter .off pre = .on) ∧
        (∀ period adc bod, e = .powerDown period adc bod → powerAfter .off pre = .off) := by
  obtain ⟨s', hs', _, hdisc, hon, hcalls⟩ := run_spec env fuel n hfuel
  refine ⟨s', hs', hcalls, chain_of_disciplined _ _ hdisc, hon, ?_⟩
  intro pre e post hsplit
  rw [hsplit] at hdisc
  have hallow := allowed_of_disciplined _ _ _ _ hdisc
  constructor
  · intro bytes length he
    subst he
    simpa [Power.allows] using hallow
  · intro period adc bod he
    subst he
    simpa [Power.allows] using hallow

theorem run_keeps_power_discipline_witness :
    ∃ s', run Env.nominal 10801 2 = some s' ∧
      powerCalls s'.trace = .on :: (List.replicate 2 [.off, .on]).flatten ∧
      List.Chain (· ≠ ·) Power.off (powerCalls s'.trace) ∧
      powerAfter .off s'.trace = .on ∧
      ∀ pre e post, s'.trace = pre ++ e :: post →
        (∀ bytes length, e = .send bytes length → powerAfter .off pre = .on) ∧
        (∀ period adc bod, e = .powerDown period adc bod → powerAfter .off pre = .off) :=
  run_keeps_power_discipline Env.nominal 10801 2 (by decide)

end Sketch

namespace Driver

/-! ### The command encoder -/

theorem appendArgs_eq (args : List Arg) :
    ∀ line : List Char,
      appendArgs line args = line ++ List.intercalate [','] (args.map Arg.format) := by
  induction args with
  | nil => intro line; simp [appendArgs, List.intercalate]
  | cons a rest ih =>
    intro line
    cases rest with
    | nil => simp [appendArgs, List.intercalate]
    | cons b rest =>
      rw [appendArgs, ih]
      simp [List.intercalate, List.intersperse, List.append_assoc]

theorem commandLine_eq (type : CommandTypes) (cmdCode : List Char) (args : List Arg) :
    commandLine type cmdCode args = expectedLine type cmdCode (args.map Arg.format) := by
  cases type
  · simp only [commandLine, expectedLine, appendArgs_eq]
    simp [AT_HEADER, AT_EOL, List.append_assoc]
  · simp only [commandLine, expectedLine]
    simp [AT_HEADER, AT_EOL, List.append_assoc]
  · simp only [commandLine, expectedLine]
    simp [AT_HEADER_SLASH, AT_EOL, List.append_assoc]


/-! ### The typed value parsers -/

theorem hexDigit_lt (c : Char) : (hexDigit c).getD 0 < 16 := by
  unfold hexDigit
  split_ifs <;> simp <;> omega

theorem hexValue_lt (cs : List Char) : hexValue cs < 16 ^ cs.length := by
  induction cs with
  | nil => simp [hexValue]
  | cons c cs ih =>
    have hd := hexDigit_lt c
    simp only [hexValue, List.length_cons, pow_succ]
    nlinarith [Nat.zero_le (16 ^ cs.length)]

theorem parseHexFrom_digits (cs : List Char) :
    ∀ acc : Nat, acc < 2 ^ 32 → (cs.all fun c => (hexDigit c).isSome) = true →
      parseHexFrom acc cs = some ((acc * 16 ^ cs.length + hexValue cs) % 2 ^ 32) := by
  induction cs with
  | nil =>
    intro acc hacc _
    simp only [parseHexFrom, hexValue, List.length_nil, pow_zero, mul_one, add_zero,
      Nat.mod_eq_of_lt hacc]
  | cons c cs ih =>
    intro acc _ hall
    simp only [List.all_cons, Bool.and_eq_true] at hall
    obtain ⟨hc, hrest⟩ := hall
    obtain ⟨d, hd⟩ := Option.isSome_iff_exists.mp hc
    simp only [parseHexFrom, hd, hexValue, Option.getD_some, List.length_cons]
    rw [ih _ (Nat.mod_lt _ (by norm_num)) hrest]
    congr 1
    have h1 : (acc * 16 + d) % 2 ^ 32 * 16 ^ cs.length + hexValue cs ≡
        (acc * 16 + d) * 16 ^ cs.length + hexValue cs [MOD 2 ^ 32] :=
      Nat.ModEq.add_right _ (Nat.ModEq.mul_right _ (Nat.mod_modEq _ _))
    rw [h1]
    congr 1
    ring

theorem parseHexFrom_other (cs : List Char) :
    ∀ acc : Nat, (cs.all fun c => (hexDigit c).isSome) = false → parseHexFrom acc cs = none := by
  induction cs with
  | nil => intro acc h; simp at h
  | cons c cs ih =>
    intro acc hall
    cases hc : hexDigit c with
    | none => simp [parseHexFrom, hc]
    | some d =>
      have hrest : (cs.all fun c => (hexDigit c).isSome) = false := by
        simpa [List.all_cons, hc] using hall
      simp [parseHexFrom, hc, ih _ hrest]

theorem decValue_lt (cs : List Char) : decValue cs < 10 ^ cs.length := by
  induction cs with
  | nil => simp [decValue]
  | cons c cs ih =>
    have hd : (decDigit c).getD 0 < 10 := by
      unfold decDigit
      split_ifs
      · simp only [Option.getD_some]; omega
      · simp
    simp only [decValue, List.length_cons, pow_succ]
    nlinarith [Nat.zero_le (10 ^ cs.length)]

theorem parseUint8From_digits (cs : List Char) :
    ∀ acc : Nat, acc ≤ 255 → (cs.all fun c => (decDigit c).isSome) = true →
      parseUint8From acc cs =
        if acc * 10 ^ cs.length + decValue cs ≤ 255
        then some (acc * 10 ^ cs.length + decValue cs) else none := by
  induction cs with
  | nil =>
    intro acc hacc _
    simp only [parseUint8From, decValue, List.length_nil, pow_zero, mul_one, add_zero,
      if_pos hacc]
  | cons c cs ih =>
    intro acc _ hall
    simp only [List.all_cons, Bool.and_eq_true] at hall
    obtain ⟨hc, hrest⟩ := hall
    obtain ⟨d, hd⟩ := Option.isSome_iff_exists.mp hc
    simp only [parseUint8From, hd, decValue, Option.getD_some, List.length_cons]
    have hpos : 0 < 10 ^ cs.length := Nat.pos_pow_of_pos _ (by norm_num)
    have hexp : acc * 10 ^ (cs.length + 1) + (d * 10 ^ cs.length + decValue cs) =
        (acc * 10 + d) * 10 ^ cs.length + decValue cs := by ring
    rw [hexp]
    by_cases hle : acc * 10 + d ≤ 255
    · rw [if_pos hle, ih _ hle hrest]
    · rw [if_neg hle, if_neg]
      have : acc * 10 + d ≤ (acc * 10 + d) * 10 ^ cs.length := Nat.le_mul_of_pos_right _ hpos
      omega


theorem parseUint8From_other (cs : List Char) :
    ∀ acc : Nat, (cs.all fun c => (decDigit c).isSome) = false → parseUint8From acc cs = none := by
  induction cs with
  | nil => intro acc h; simp at h
  | cons c cs ih =>
    intro acc hall
    cases hc : decDigit c with
    | none => simp [parseUint8From, hc]
    | some d =>
      have hrest : (cs.all fun c => (decDigit c).isSome) = false := by
        simpa [List.all_cons, hc] using hall
      simp [parseUint8From, hc, ih _ hrest]

theorem parseUint8Value_eq (payload : List Char) :
    arduinoSigfox.parseUint8Value payload =
      if payload ≠ [] ∧ (payload.all fun c => (decDigit c).isSome) = true ∧
          decValue payload ≤ 255
      then some (decValue payload) else none := by
  cases payload with
  | nil => simp [arduinoSigfox.parseUint8Value]
  | cons c cs =>
    rw [arduinoSigfox.parseUint8Value]
    cases hall : (c :: cs).all fun c => (decDigit c).isSome with
    | false => simp [parseUint8From_other _ _ hall]
    | true =>
      rw [parseUint8From_digits _ 0 (by norm_num) hall]
      simp

theorem decDigit_digitChar (m : Nat) (hm : m < 10) : decDigit (Nat.digitChar m) = some m := by
  interval_cases m <;> rfl

theorem toDigitsCore_dec (fuel : Nat) :
    ∀ (n : Nat) (ds : List Char), n < fuel →
      (ds.all fun c => (decDigit c).isSome) = true →
      Nat.toDigitsCore 10 fuel n ds ≠ [] ∧
      ((Nat.toDigitsCore 10 fuel n ds).all fun c => (decDigit c).isSome) = true ∧
      decValue (Nat.toDigitsCore 10 fuel n ds) = n * 10 ^ ds.length + decValue ds := by
  induction fuel with
  | zero => intro n ds h; omega
  | succ fuel ih =>
    intro n ds hn hds
    have hd := decDigit_digitChar (n % 10) (Nat.mod_lt _ (by norm_num))
    simp only [Nat.toDigitsCore]
    by_cases h0 : n / 10 = 0
    · rw [if_pos h0]
      refine ⟨by simp, by simp [hd, hds], ?_⟩
      have hn' : n % 10 = n := by omega
      have hd' : decDigit (Nat.digitChar n) = some n := by rw [hn'] at hd; exact hd
      simp only [decValue, hn', hd', Option.getD_some]
    · rw [if_neg h0]
      obtain ⟨h1, h2, h3⟩ := ih (n / 10) (Nat.digitChar (n % 10) :: ds) (by omega)
        (by simp [hd, hds])
      refine ⟨h1, h2, ?_⟩
      rw [h3]
      simp only [decValue, hd, Option.getD_some, List.length_cons, pow_succ]
      have hdiv : n = n / 10 * 10 + n % 10 := by omega
      calc n / 10 * (10 ^ ds.length * 10) + (n % 10 * 10 ^ ds.length + decValue ds)
          = (n / 10 * 10 + n % 10) * 10 ^ ds.length + decValue ds := by ring
        _ = n * 10 ^ ds.length + decValue ds := by rw [← hdiv]

theorem toDigits_dec (n : Nat) :
    Nat.toDigits 10 n ≠ [] ∧
      ((Nat.toDigits 10 n).all fun c => (decDigit c).isSome) = true ∧
      decValue (Nat.toDigits 10 n) = n := by
  have h := toDigitsCore_dec (n + 1) n [] (by omega) rfl
  simpa [Nat.toDigits, decValue] using h

theorem parseUint8Value_repr (n : Nat) :
    arduinoSigfox.parseUint8Value (toString n).toList = if n ≤ 255 then some n else none := by
  have hrepr : (toString n).toList = Nat.toDigits 10 n := rfl
  obtain ⟨h1, h2, h3⟩ := toDigits_dec n
  rw [hrepr, parseUint8Value_eq, h3]
  simp [h1, h2]

theorem parseUint8Value_int (z : Int) :
    arduinoSigfox.parseUint8Value (toString z).toList =
      if 0 ≤ z ∧ z ≤ 255 then some z.toNat else none := by
  cases z with
  | ofNat n =>
    have hstr : (toString (Int.ofNat n)).toList = (toString n).toList := rfl
    rw [hstr, parseUint8Value_repr]
    by_cases hn : n ≤ 255
    · have : (0 : Int) ≤ Int.ofNat n ∧ Int.ofNat n ≤ 255 := ⟨by simp, by simpa using hn⟩
      simp [hn, this]
    · have : ¬ ((0 : Int) ≤ Int.ofNat n ∧ Int.ofNat n ≤ 255) := by
        intro h; apply hn; simpa using h.2
      simp [hn, this]
  | negSucc n =>
    have hstr : (toString (Int.negSucc n)).toList = '-' :: (toString (n + 1)).toList := rfl
    have hneg : ¬ ((0 : Int) ≤ Int.negSucc n ∧ Int.negSucc n ≤ 255) := by
      intro h; exact absurd h.1 (by simp [Int.negSucc_lt_zero])
    rw [hstr, if_neg hneg]
    rfl


/-! ### Claims on the driver -/

/-- C2: the classifier gives every response exactly one of the three outcomes,
and a payload only with the outcome OK; the line `OK` gives OK with the empty
payload, `OK=1A2B` gives OK with the payload `1A2B`, `ERROR` gives ERROR with no
payload, and no line within the timeout window gives NO_ANSWER. -/
theorem classify_outcomes (response : Option (List Char)) :
    (((classify response).1 = .SIGFOX_ANSWER_OK ∧
        (classify response).1 ≠ .SIGFOX_ANSWER_ERROR ∧
        (classify response).1 ≠ .SIGFOX_NO_ANSWER) ∨
      ((classify response).1 = .SIGFOX_ANSWER_ERROR ∧
        (classify response).1 ≠ .SIGFOX_ANSWER_OK ∧
        (classify response).1 ≠ .SIGFOX_NO_ANSWER ∧ (classify response).2 = none) ∨
      ((classify response).1 = .SIGFOX_NO_ANSWER ∧
        (classify response).1 ≠ .SIGFOX_ANSWER_OK ∧
        (classify response).1 ≠ .SIGFOX_ANSWER_ERROR ∧ (classify response).2 = none)) ∧
    classify (some "OK".toList) = (.SIGFOX_ANSWER_OK, some []) ∧
    classify (some "OK=1A2B".toList) = (.SIGFOX_ANSWER_OK, some "1A2B".toList) ∧
    classify (some "ERROR".toList) = (.SIGFOX_ANSWER_ERROR, none) ∧
    classify none = (.SIGFOX_NO_ANSWER, none) := by
  refine ⟨?_, by decide, by decide, by decide, rfl⟩
  cases response with
  | none => simp [classify]
  | some line =>
    simp only [classify]
    split_ifs <;> simp

/-- C3: the hex parser returns the unsigned 32-bit value of a payload made only
of ASCII hex digits (the value itself when the payload has at most eight
digits) and fails on every payload that contains another character; `1A2B`
gives 0x1A2B = 6699 and `G1` fails. -/
theorem parseHexValue_spec (payload : List Char) :
    arduinoSigfox.parseHexValue payload =
      (if (payload.all fun c => (hexDigit c).isSome) = true
       then some (hexValue payload % 2 ^ 32) else none) ∧
    (payload.length ≤ 8 → hexValue payload % 2 ^ 32 = hexValue payload) ∧
    arduinoSigfox.parseHexValue "1A2B".toList = some 6699 ∧
    (0x1A2B : Nat) = 6699 ∧
    arduinoSigfox.parseHexValue "G1".toList = none := by
  refine ⟨?_, ?_, by decide, by decide, by decide⟩
  · cases hall : payload.all fun c => (hexDigit c).isSome with
    | false => simp [arduinoSigfox.parseHexValue, parseHexFrom_other _ _ hall]
    | true =>
      rw [arduinoSigfox.parseHexValue, parseHexFrom_digits _ 0 (by norm_num) hall]
      simp
  · intro hlen
    apply Nat.mod_eq_of_lt
    calc hexValue payload < 16 ^ payload.length := hexValue_lt payload
      _ ≤ 16 ^ 8 := Nat.pow_le_pow_right (by norm_num) hlen
      _ = 2 ^ 32 := by norm_num

/-- C4: the 8-bit decimal parser returns the value of a payload that is a
non-empty list of ASCII decimal digits of value at most 255 and fails on every
other payload; on the decimal form of an integer `z` it returns `z` when
`0 ≤ z ≤ 255` and fails otherwise; `255` gives 255, `256` and `-1` fail. -/
theorem parseUint8Value_spec (payload : List Char) (z : Int) :
    arduinoSigfox.parseUint8Value payload =
      (if payload ≠ [] ∧ (payload.all fun c => (decDigit c).isSome) = true ∧
          decValue payload ≤ 255
       then some (decValue payload) else none) ∧
    arduinoSigfox.parseUint8Value (toString z).toList =
      (if 0 ≤ z ∧ z ≤ 255 then some z.toNat else none) ∧
    arduinoSigfox.parseUint8Value "255".toList = some 255 ∧
    arduinoSigfox.parseUint8Value "256".toList = none ∧
    arduinoSigfox.parseUint8Value "-1".toList = none :=
  ⟨parseUint8Value_eq payload, parseUint8Value_int z, by decide, by decide, by decide⟩

/-- C5: for every command type, command code and argument list, the encoder
writes at most 100 bytes into the command buffer, and the call fails exactly
when the command line is longer than 100 bytes. -/
theorem generator_respects_capacity (type : CommandTypes) (cmdCode : List Char)
    (args : List Arg) :
    (∀ buffer ∈ arduinoSigfox.generator type cmdCode args, buffer.length ≤ 100) ∧
    (arduinoSigfox.generator type cmdCode args = none ↔
      100 < (expectedLine type cmdCode (args.map Arg.format)).length) ∧
    COMMAND_CAPACITY = 100 := by
  refine ⟨?_, ?_, rfl⟩
  · intro buffer hmem
    simp only [arduinoSigfox.generator, COMMAND_CAPACITY, Option.mem_def] at hmem
    split_ifs at hmem with hfit
    cases hmem
    exact hfit
  · simp only [arduinoSigfox.generator, commandLine_eq, COMMAND_CAPACITY]
    split_ifs with hfit
    · simp; omega
    · simp; omega

end Driver
